import Mathlib

/-!
Verification of the qserv frontend chunk-dispatch planner
(src/master/python/lsst/qserv/master/app.py).

The embedding below translates, function by function, the planning core of
`InbandQueryAction`: hint evaluation (`_evaluateHints`), spatial and
secondary-index hint resolution (`_computeSpatialRegions`,
`_computeIndexRegions`, `SecondaryIndex.lookup`), empty-chunk filtering with
the `RangePrint` rejection reporter, the chunk limit, and the dummy-chunk
fallback (`_applyConstraints`).  External collaborators (the region factory
of the spatial module, the partition map intersection, the index database,
the metadata empty-chunk set, the configured chunk limit) are passed in as
an explicit environment `Env`, since the planner only consumes their
results.
-/

/-- A query hint as marshalled from the C++ parser constraints:
a name and an ordered parameter list. -/
abbrev Hint := String × List String

/-- Regions are opaque tokens here: the planner never inspects their
geometry, it only passes them between the region factory and the
partition-map intersection. -/
abbrev Region := Nat

/-- The reserved sentinel chunk id (constant `dummyEmptyChunk` in app.py). -/
def dummyEmptyChunk : Int := 1234567890

/-- `IndexLookup` from app.py: one secondary-index key lookup. -/
structure IndexLookup where
  db : String
  table : String
  keyColumn : String
  keyVals : List String
deriving DecidableEq, Repr

/-- A unit of dispatch: `ChunkSpec` as filled in by `_applyConstraints`
(`c.chunkId = chunkId`, subchunks added in order via `addSubChunk`). -/
structure ChunkSpec where
  chunkId : Int
  subChunkIds : List Int
deriving DecidableEq, Repr

/-- One element of `self._intersectIter`.  The spatial path stores
`(chunkId, subChunkIds)` tuples; in the combined spatial+index path the code
chains the tuple list with the raw index chunk-id list, so a bare chunk id
can also appear as an element. -/
inductive IterItem where
  | pair (chunkId : Int) (subChunkIds : List Int)
  | bare (chunkId : Int)
deriving DecidableEq, Repr

/-- Whether an `_intersectIter` element is a `(chunkId, subChunkIds)` tuple. -/
def IterItem.isPair : IterItem → Bool
  | .pair _ _ => true
  | .bare _ => false

/-- One diagnostic line written by `RangePrint`: either
`Rejecting chunk: N` or `Rejecting chunks: N-M`. -/
inductive Report where
  | single (chunkId : Int)
  | rangeRun (first last : Int)
deriving DecidableEq, Repr

/-- The mutable `RangePrint` helper of `_applyConstraints`: tracks the
current run of rejected chunk ids (`first`, `last`, both initialised to -1)
and the diagnostic lines emitted so far. -/
structure RangePrint where
  last : Int
  first : Int
  out : List Report
deriving DecidableEq, Repr

/-- `RangePrint()` constructor: `last = -1`, `first = -1`, nothing printed. -/
def RangePrint.init : RangePrint := ⟨-1, -1, []⟩

/-- `RangePrint._print`: emits a range line when `last - first > 1`,
otherwise a single-chunk line naming `last`. -/
def RangePrint.printRun (r : RangePrint) : RangePrint :=
  if r.last - r.first > 1 then ⟨r.last, r.first, r.out ++ [Report.rangeRun r.first r.last]⟩
  else ⟨r.last, r.first, r.out ++ [Report.single r.last]⟩

/-- `RangePrint.add`: when the new rejected chunk does not extend the
current run (`last != chunkId - 1`), print the pending run (unless `last`
is still the initial -1) and start a new run at `chunkId`; in both cases
`last` becomes `chunkId`. -/
def RangePrint.add (r : RangePrint) (chunkId : Int) : RangePrint :=
  if r.last ≠ chunkId - 1 then
    let r1 := if r.last ≠ -1 then r.printRun else r
    ⟨chunkId, chunkId, r1.out⟩
  else
    ⟨chunkId, r.first, r.out⟩

/-- The environment of external collaborators consumed by the planner:
the spatial module region factory (`getRegionFromHint` result and its
`errorDesc`), the partition map intersection (rows of
`(chunkId, [(subChunkId, _), ...])`), the index database answering the
joined UNION query built by `SecondaryIndex.lookup`, the per-database empty
chunk set from metadata, and the effective chunk limit of the action. -/
structure Env where
  getRegionFromHint : List Hint → Option (List Region)
  errorDesc : List Hint → String
  intersect : List Region → List (Int × List (Int × Int))
  applySql : List IndexLookup → List (List Int)
  emptyChunks : List Int
  chunkLimit : Int

/-- Message raised by `SecondaryIndex.lookup` when the result rows cannot be
mapped to chunk ids. -/
def lookupErrorMsg : String := "mysqld error during index lookup"

/-- Message for the Python `IndexError` raised by `_computeIndexRegions`
when an sIndex hint has fewer than three parameters. -/
def indexErrorMsg : String := "IndexError: list index out of range"

/-- Message for the Python `TypeError` raised by the dispatch loop of
`_applyConstraints` when it unpacks a bare chunk id chained into
`_intersectIter` by `_evaluateHints`. -/
def typeErrorMsg : String := "TypeError: unpacking non-sequence chunk id"

/-- The `QueryHintError` message of `_computeSpatialRegions`:
`Error parsing hint string %s` applied to the factory error description. -/
def hintParseMsg (desc : String) : String := "Error parsing hint string " ++ desc

/-- `SecondaryIndex.lookup`: builds one SELECT per lookup; with no lookups
it returns `None` (here `none`); otherwise it runs the UNION of the SELECTs
and maps each returned row to its first column, raising `QueryHintError` if
a row cannot be indexed. -/
def SecondaryIndex.lookup (env : Env) (indexLookups : List IndexLookup) :
    Except String (Option (List Int)) :=
  if indexLookups = [] then Except.ok none
  else
    let cids := env.applySql indexLookups
    if cids.all (fun t => !t.isEmpty) then
      Except.ok (some (cids.map (fun t => t.headD 0)))
    else Except.error lookupErrorMsg

/-- `_computeSpatialRegions`: asks the region factory; `None` with a
non-empty `errorDesc` raises `QueryHintError`, `None` without a description
yields no regions. -/
def computeSpatialRegions (env : Env) (hintList : List Hint) :
    Except String (List Region) :=
  match env.getRegionFromHint hintList with
  | some regs => Except.ok regs
  | none =>
    if env.errorDesc hintList ≠ "" then Except.error (hintParseMsg (env.errorDesc hintList))
    else Except.ok []

/-- `_computeIndexRegions`: filters the hints named `sIndex`, builds an
`IndexLookup` from `params[0]`, `params[1]`, `params[2]`, `params[3:]`
(an sIndex hint with fewer than three parameters raises `IndexError`), and
delegates to `SecondaryIndex.lookup`. -/
def computeIndexRegions (env : Env) (hintList : List Hint) :
    Except String (Option (List Int)) :=
  let secIndexSpecs := hintList.filter (fun t => t.1 == "sIndex")
  if secIndexSpecs.all (fun s => 3 ≤ s.2.length) then
    SecondaryIndex.lookup env (secIndexSpecs.map (fun s =>
      ⟨s.2.getD 0 "", s.2.getD 1 "", s.2.getD 2 "", s.2.drop 3⟩))
  else Except.error indexErrorMsg

/-- Modelled from the spec: the initial value of `_intersectIter` is the
partition map object itself, and it is consumed as an iterator only when no
hint narrowed it.  The spatial module implementing the partition map is not
part of the sampled source; per the spec (section 4.3 step 5) the
unconstrained case is represented operationally by the dummy sentinel
fallback, i.e. iterating the untouched partition map contributes no
candidate chunks of its own. -/
def pmapIter : List IterItem := []

/-- `_evaluateHints`: starts with `_isFullSky = True` and
`_intersectIter = pmap`; with hints present it computes spatial regions and
index chunk ids, replaces the iterator with the mapped intersection rows
when regions exist (clearing the full-sky flag), then merges non-empty
index results: chained as bare chunk ids after spatial tuples, or wrapped
as `(chunkId, [])` tuples when there were no regions.  (The final
`if not self._intersectIter` guard is kept as a list-emptiness test; it can
never fire, since in the chain case the Python `chain` object is always
truthy and in the wrap case the list is built from a non-empty id list.) -/
def evaluateHints (env : Env) (hintList : List Hint) :
    Except String (Bool × List IterItem) :=
  if hintList = [] then Except.ok (true, pmapIter)
  else
    match computeSpatialRegions env hintList with
    | Except.error e => Except.error e
    | Except.ok regions =>
      match computeIndexRegions env hintList with
      | Except.error e => Except.error e
      | Except.ok indexRegions =>
        let fullSky1 : Bool := if regions ≠ [] then false else true
        let iter1 : List IterItem :=
          if regions ≠ [] then
            (env.intersect regions).map (fun i => IterItem.pair i.1 (i.2.map (fun j => j.1)))
          else pmapIter
        match indexRegions with
        | some cids =>
          if cids ≠ [] then
            let iter2 :=
              if regions ≠ [] then iter1 ++ cids.map IterItem.bare
              else cids.map (fun c => IterItem.pair c [])
            Except.ok (false, if iter2.isEmpty then [IterItem.pair dummyEmptyChunk []] else iter2)
          else Except.ok (fullSky1, iter1)
        | none => Except.ok (fullSky1, iter1)

/-- The state reached when the dispatch loop of `_applyConstraints`
finishes (or aborts): chunks added to the session so far, the running
count, the `RangePrint` state, and whether unpacking a bare chunk id
raised `TypeError`. -/
structure LoopResult where
  chunks : List ChunkSpec
  count : Int
  rp : RangePrint
  failed : Bool
deriving DecidableEq, Repr

/-- The dispatch loop of `_applyConstraints`: for each iterator element,
a chunk id in the empty-chunk set is handed to `RangePrint` and skipped;
otherwise a `ChunkSpec` is built and added, and the loop breaks once the
count reaches the chunk limit.  A bare (non-tuple) element cannot be
unpacked and aborts the loop. -/
def addLoop (emptyChunks : List Int) (chunkLimit : Int) :
    List IterItem → Int → RangePrint → List ChunkSpec → LoopResult
  | [], count, rp, acc => ⟨acc, count, rp, false⟩
  | IterItem.bare _ :: _, count, rp, acc => ⟨acc, count, rp, true⟩
  | IterItem.pair chunkId subs :: rest, count, rp, acc =>
    if chunkId ∈ emptyChunks then
      addLoop emptyChunks chunkLimit rest count (rp.add chunkId) acc
    else
      let acc2 := acc ++ [⟨chunkId, subs⟩]
      let count2 := count + 1
      if chunkLimit ≤ count2 then ⟨acc2, count2, rp, false⟩
      else addLoop emptyChunks chunkLimit rest count2 rp acc2

/-- The dispatch loop started from count 0, a fresh `RangePrint` and an
empty session, as `_applyConstraints` does. -/
def planLoop (env : Env) (iter : List IterItem) : LoopResult :=
  addLoop env.emptyChunks env.chunkLimit iter 0 RangePrint.init []

/-- The observable outcome of `_applyConstraints`: the chunk specs added to
the C++ session, the `_isFullSky` attribute, the diagnostic lines printed
by `RangePrint`, and the error description when planning aborted (in which
case `isValid` stays false and no finalized plan exists). -/
structure PlanOutcome where
  sessionChunks : List ChunkSpec
  isFullSky : Bool
  reports : List Report
  error : Option String
deriving DecidableEq, Repr

/-- `_applyConstraints` after hint marshalling: evaluate the hints, run the
dispatch loop, fall back to the dummy sentinel chunk when nothing was
added, and finish the rejection reporter.  Errors raised inside
`_evaluateHints` propagate before any chunk is added; the `TypeError` of
the loop aborts after the chunks already added (and skips
`rPrint.finish()`). -/
def applyConstraints (env : Env) (hintList : List Hint) : PlanOutcome :=
  match evaluateHints env hintList with
  | Except.error e => ⟨[], true, [], some e⟩
  | Except.ok (fullSky, iter) =>
    let r := planLoop env iter
    if r.failed then ⟨r.chunks, fullSky, r.rp.out, some typeErrorMsg⟩
    else
      ⟨(if r.count = 0 then r.chunks ++ [⟨dummyEmptyChunk, []⟩] else r.chunks),
       fullSky, r.rp.printRun.out, none⟩

/-- `__init__` default: `self.chunkLimit = 2**32`. -/
def initialChunkLimit : Int := 2 ^ 32

/-- `_importQconfig`: the configured debug chunk limit replaces the default
only when it is strictly positive. -/
def importQconfigChunkLimit (cfgLimit : Int) : Int :=
  if cfgLimit > 0 then cfgLimit else initialChunkLimit

/-- Modelled from the spec: the index store executes the single SQL
statement obtained by joining the per-lookup SELECTs with " UNION ".  The
store itself (`Db.applySql`) is not part of the sampled source; per the
spec (section 4.4) SQL UNION combines the per-lookup matches with
set-union semantics, so the rows returned are the duplicate-free union of
the matching chunk ids of each lookup, one single-column row per chunk id. -/
def sqlUnionExec (perLookup : IndexLookup → List Int) (lookups : List IndexLookup) :
    List (List Int) :=
  ((lookups.map perLookup).flatten).dedup.map (fun c => [c])

/-- An environment whose index database behaves as `sqlUnionExec` over the
given per-lookup match sets; the other collaborators are inert. -/
def idxEnv (perLookup : IndexLookup → List Int) : Env :=
  ⟨fun _ => none, fun _ => "", fun _ => [], sqlUnionExec perLookup, [], initialChunkLimit⟩

/-!  Reference functions used to state properties of the loop. -/

/-- The candidate chunk specs that survive empty-chunk filtering, in
enumeration order (tuple elements only). -/
def survivorsList (emptyChunks : List Int) (iter : List IterItem) : List ChunkSpec :=
  iter.filterMap (fun item => match item with
    | IterItem.pair c subs => if c ∈ emptyChunks then none else some ⟨c, subs⟩
    | IterItem.bare _ => none)

/-- The chunk ids rejected by empty-chunk filtering, in enumeration order
(tuple elements only). -/
def rejectedOf (emptyChunks : List Int) (iter : List IterItem) : List Int :=
  iter.filterMap (fun item => match item with
    | IterItem.pair c _ => if c ∈ emptyChunks then some c else none
    | IterItem.bare _ => none)

/-- Maximal runs of consecutive integers in a sequence, as
(first, last) pairs: helper carrying the current run. -/
def runsGo (f l : Int) : List Int → List (Int × Int)
  | [] => [(f, l)]
  | c :: rest => if c = l + 1 then runsGo f c rest else (f, l) :: runsGo c c rest

/-- Maximal runs of consecutive integers in a sequence, as
(first, last) pairs. -/
def runs : List Int → List (Int × Int)
  | [] => []
  | c :: rest => runsGo c c rest

/-- How `RangePrint` formats one finished run (first, last): a range line
when `last - first > 1`, otherwise a single-chunk line naming `last`. -/
def fmtReport (p : Int × Int) : Report :=
  if p.2 - p.1 > 1 then Report.rangeRun p.1 p.2 else Report.single p.2

/-!  Concrete planner inputs used by the claim theorems below. -/

/-- A box hint together with an sIndex hint. -/
def hintsC1 : List Hint :=
  [("box", ["0", "0", "1", "1"]), ("sIndex", ["LSST", "Object", "objectId", "5"])]

/-- Environment where the box hint yields one region whose intersection is
chunk 7 with subchunks 1 and 2, and the index lookup also resolves to
chunk 7. -/
def envC1 : Env :=
  ⟨fun _ => some [0], fun _ => "", fun _ => [(7, [(1, 0), (2, 0)])],
   fun _ => [[7]], [], initialChunkLimit⟩

/-- Environment whose per-database empty-chunk set contains the sentinel
chunk id itself. -/
def envC2x : Env :=
  ⟨fun _ => some [], fun _ => "", fun _ => [], fun _ => [], [dummyEmptyChunk],
   initialChunkLimit⟩

/-- An sIndex-only hint list. -/
def hintsC2w : List Hint := [("sIndex", ["LSST", "Object", "objectId", "9"])]

/-- Environment where the index lookup resolves to chunks 42 and 7 and
chunk 42 is empty. -/
def envC2w : Env :=
  ⟨fun _ => some [], fun _ => "", fun _ => [], fun _ => [[42], [7]], [42],
   initialChunkLimit⟩

/-- A spatial-only hint list. -/
def hintsC4w : List Hint := [("box", ["5", "5", "6", "6"])]

/-- Environment where the box hint yields a region that intersects no
partition stripe: the intersection is empty. -/
def envC4w : Env :=
  ⟨fun _ => some [0], fun _ => "", fun _ => [], fun _ => [], [],
   initialChunkLimit⟩

/-- An sIndex-only hint list. -/
def hintsC5x : List Hint := [("sIndex", ["db1", "t1", "objectId", "11", "12"])]

/-- Environment with a chunk limit of 2 whose index lookup enumerates the
candidate chunks in the order 10, 3, 5. -/
def envC5x : Env :=
  ⟨fun _ => some [], fun _ => "", fun _ => [], fun _ => [[10], [3], [5]], [], 2⟩

/-- The intersect iterator produced for `envC5x` and `hintsC5x`. -/
def iterC5x : List IterItem :=
  [IterItem.pair 10 [], IterItem.pair 3 [], IterItem.pair 5 []]

/-- An sIndex-only hint list. -/
def hintsC5w : List Hint := [("sIndex", ["db2", "t2", "objectId", "21"])]

/-- Environment with a chunk limit of 2 whose index lookup enumerates the
candidate chunks in the order 4, 9, 1. -/
def envC5w : Env :=
  ⟨fun _ => some [], fun _ => "", fun _ => [], fun _ => [[4], [9], [1]], [], 2⟩

/-- The intersect iterator produced for `envC5w` and `hintsC5w`. -/
def iterC5w : List IterItem :=
  [IterItem.pair 4 [], IterItem.pair 9 [], IterItem.pair 1 []]

/-- A spatial-only hint list. -/
def hintsC6x : List Hint := [("box", ["1", "2", "3", "4"])]

/-- Environment where the box hint yields a region but the partition-map
intersection of that region is empty. -/
def envC6x : Env :=
  ⟨fun _ => some [0], fun _ => "", fun _ => [], fun _ => [], [],
   initialChunkLimit⟩

/-- A spatial-only hint list. -/
def hintsC6w : List Hint := [("box", ["7", "8", "9", "10"])]

/-- Environment where the box hint yields a region intersecting chunk 3
with subchunk 1. -/
def envC6w : Env :=
  ⟨fun _ => some [0], fun _ => "", fun _ => [(3, [(1, 0)])], fun _ => [], [],
   initialChunkLimit⟩

/-- A spatial-only hint list with malformed parameters. -/
def hintsC8w : List Hint := [("box", ["x"])]

/-- Environment whose region factory fails to parse the hint: it returns
no regions and sets a non-empty error description. -/
def envC8w : Env :=
  ⟨fun _ => none, fun _ => "bad box spec", fun _ => [], fun _ => [], [],
   initialChunkLimit⟩

/-- An sIndex-only hint list. -/
def hintsC9x : List Hint := [("sIndex", ["db3", "t3", "objectId", "31"])]

/-- Environment where the index lookup resolves to chunks 5, 6, 8 and
chunks 5 and 6 (a rejected run of length two) are empty. -/
def envC9x : Env :=
  ⟨fun _ => some [], fun _ => "", fun _ => [], fun _ => [[5], [6], [8]], [5, 6],
   initialChunkLimit⟩

/-- The intersect iterator produced for `envC9x` and `hintsC9x`. -/
def iterC9x : List IterItem :=
  [IterItem.pair 5 [], IterItem.pair 6 [], IterItem.pair 8 []]

/-- An sIndex-only hint list. -/
def hintsC9w : List Hint := [("sIndex", ["db4", "t4", "objectId", "41"])]

/-- Environment where the index lookup resolves to chunks 2, 3, 4, 9 and
chunks 2, 3, 4 (a rejected run of length three) are empty. -/
def envC9w : Env :=
  ⟨fun _ => some [], fun _ => "", fun _ => [], fun _ => [[2], [3], [4], [9]],
   [2, 3, 4], initialChunkLimit⟩

/-- The intersect iterator produced for `envC9w` and `hintsC9w`. -/
def iterC9w : List IterItem :=
  [IterItem.pair 2 [], IterItem.pair 3 [], IterItem.pair 4 [], IterItem.pair 9 []]

/-!  Helper lemmas about the dispatch loop. -/

theorem addLoop_failed (e : List Int) (l : Int) (iter : List IterItem)
    (hp : ∀ i ∈ iter, i.isPair = true) :
    ∀ (c : Int) (rp : RangePrint) (a : List ChunkSpec),
      (addLoop e l iter c rp a).failed = false := by
  induction iter with
  | nil => intro c rp a; rfl
  | cons i rest ih =>
    intro c rp a
    cases i with
    | bare cid => exact absurd (hp _ (List.mem_cons_self _ _)) (by simp [IterItem.isPair])
    | pair cid subs =>
      have hrest : ∀ i ∈ rest, i.isPair = true := fun i hi => hp i (List.mem_cons_of_mem _ hi)
      simp only [addLoop]
      by_cases hmem : cid ∈ e
      · rw [if_pos hmem]; exact ih hrest _ _ _
      · rw [if_neg hmem]
        by_cases hbr : l ≤ c + 1
        · rw [if_pos hbr]
        · rw [if_neg hbr]; exact ih hrest _ _ _

theorem addLoop_count (e : List Int) (l : Int) (iter : List IterItem) :
    ∀ (c : Int) (rp : RangePrint) (a : List ChunkSpec),
      (addLoop e l iter c rp a).count + (a.length : Int) =
        c + ((addLoop e l iter c rp a).chunks.length : Int) := by
  induction iter with
  | nil => intro c rp a; simp [addLoop]
  | cons i rest ih =>
    intro c rp a
    cases i with
    | bare cid => simp [addLoop]
    | pair cid subs =>
      simp only [addLoop]
      by_cases hmem : cid ∈ e
      · rw [if_pos hmem]; exact ih _ _ _
      · rw [if_neg hmem]
        by_cases hbr : l ≤ c + 1
        · rw [if_pos hbr]; simp; omega
        · rw [if_neg hbr]
          have := ih (c + 1) rp (a ++ [⟨cid, subs⟩])
          simp at this ⊢
          omega

theorem addLoop_mem (e : List Int) (l : Int) (iter : List IterItem) :
    ∀ (c : Int) (rp : RangePrint) (a : List ChunkSpec) (x : ChunkSpec),
      x ∈ (addLoop e l iter c rp a).chunks → x ∈ a ∨ x.chunkId ∉ e := by
  induction iter with
  | nil => intro c rp a x hx; exact Or.inl hx
  | cons i rest ih =>
    intro c rp a x hx
    cases i with
    | bare cid => exact Or.inl hx
    | pair cid subs =>
      simp only [addLoop] at hx
      by_cases hmem : cid ∈ e
      · rw [if_pos hmem] at hx; exact ih _ _ _ _ hx
      · rw [if_neg hmem] at hx
        by_cases hbr : l ≤ c + 1
        · rw [if_pos hbr] at hx
          rcases List.mem_append.mp hx with h | h
          · exact Or.inl h
          · right; simp at h; rw [h]; exact hmem
        · rw [if_neg hbr] at hx
          rcases ih _ _ _ _ hx with h | h
          · rcases List.mem_append.mp h with h2 | h2
            · exact Or.inl h2
            · right; simp at h2; rw [h2]; exact hmem
          · exact Or.inr h

theorem addLoop_chunks (e : List Int) (l : Int) (iter : List IterItem)
    (hp : ∀ i ∈ iter, i.isPair = true) :
    ∀ (c : Int) (rp : RangePrint) (a : List ChunkSpec), c < l →
      (addLoop e l iter c rp a).chunks = a ++ (survivorsList e iter).take (l - c).toNat := by
  induction iter with
  | nil => intro c rp a _; simp [addLoop, survivorsList]
  | cons i rest ih =>
    intro c rp a hc
    cases i with
    | bare cid => exact absurd (hp _ (List.mem_cons_self _ _)) (by simp [IterItem.isPair])
    | pair cid subs =>
      have hrest : ∀ i ∈ rest, i.isPair = true := fun i hi => hp i (List.mem_cons_of_mem _ hi)
      simp only [addLoop]
      by_cases hmem : cid ∈ e
      · rw [if_pos hmem, ih hrest _ _ _ hc]
        simp [survivorsList, hmem]
      · rw [if_neg hmem]
        have hsurv : survivorsList e (IterItem.pair cid subs :: rest) =
            ⟨cid, subs⟩ :: survivorsList e rest := by
          simp [survivorsList, hmem]
        by_cases hbr : l ≤ c + 1
        · rw [if_pos hbr]
          have hl1 : (l - c).toNat = 1 := by omega
          rw [hsurv, hl1]
          simp
        · rw [if_neg hbr]
          rw [ih hrest (c + 1) rp (a ++ [ChunkSpec.mk cid subs]) (by omega)]
          have hts : (l - c).toNat = (l - (c + 1)).toNat + 1 := by omega
          rw [hsurv, hts, List.take_succ_cons, List.append_assoc]
          rfl

theorem addLoop_rp (e : List Int) (l : Int) (iter : List IterItem)
    (hp : ∀ i ∈ iter, i.isPair = true) :
    ∀ (c : Int) (rp : RangePrint) (a : List ChunkSpec),
      c + ((survivorsList e iter).length : Int) < l →
      (addLoop e l iter c rp a).rp = (rejectedOf e iter).foldl RangePrint.add rp := by
  induction iter with
  | nil => intro c rp a _; simp [addLoop, rejectedOf]
  | cons i rest ih =>
    intro c rp a hnb
    cases i with
    | bare cid => exact absurd (hp _ (List.mem_cons_self _ _)) (by simp [IterItem.isPair])
    | pair cid subs =>
      have hrest : ∀ i ∈ rest, i.isPair = true := fun i hi => hp i (List.mem_cons_of_mem _ hi)
      simp only [addLoop]
      by_cases hmem : cid ∈ e
      · rw [if_pos hmem]
        have hsurv : survivorsList e (IterItem.pair cid subs :: rest) = survivorsList e rest := by
          simp [survivorsList, hmem]
        rw [hsurv] at hnb
        rw [ih hrest c (rp.add cid) a hnb]
        simp [rejectedOf, hmem]
      · rw [if_neg hmem]
        have hsurv : (survivorsList e (IterItem.pair cid subs :: rest)).length =
            (survivorsList e rest).length + 1 := by
          simp [survivorsList, hmem]
        rw [hsurv] at hnb
        have hbr : ¬ l ≤ c + 1 := by omega
        rw [if_neg hbr]
        rw [ih hrest (c + 1) rp (a ++ [ChunkSpec.mk cid subs]) (by omega)]
        simp [rejectedOf, hmem]

theorem foldl_add_go (rest : List Int) :
    ∀ (f l : Int) (out : List Report), (∀ x ∈ rest, 0 < x) → l ≠ -1 →
      ((rest.foldl RangePrint.add ⟨l, f, out⟩).printRun).out =
        out ++ (runsGo f l rest).map fmtReport := by
  induction rest with
  | nil =>
    intro f l out _ _
    simp only [List.foldl_nil, runsGo, RangePrint.printRun]
    by_cases h : l - f > 1
    · rw [if_pos h]; simp [fmtReport, h]
    · rw [if_neg h]; simp [fmtReport, h]
  | cons c rest ih =>
    intro f l out hpos hl
    have hposr : ∀ x ∈ rest, 0 < x := fun x hx => hpos x (List.mem_cons_of_mem _ hx)
    have hcpos : 0 < c := hpos c (List.mem_cons_self _ _)
    simp only [List.foldl_cons]
    by_cases hrun : c = l + 1
    · have hadd : RangePrint.add ⟨l, f, out⟩ c = ⟨c, f, out⟩ := by
        have : ¬ l ≠ c - 1 := by omega
        simp only [RangePrint.add, if_neg this]
      rw [hadd, ih f c out hposr (by omega)]
      simp only [runsGo, if_pos hrun]
    · have hadd : RangePrint.add ⟨l, f, out⟩ c =
          ⟨c, c, out ++ [fmtReport (f, l)]⟩ := by
        have hne : (⟨l, f, out⟩ : RangePrint).last ≠ c - 1 := by simp; omega
        simp only [RangePrint.add, if_pos hne, if_pos hl]
        simp only [RangePrint.printRun, fmtReport]
        by_cases h : l - f > 1
        · rw [if_pos h]; simp [h]
        · rw [if_neg h]; simp [h]
      rw [hadd, ih c c (out ++ [fmtReport (f, l)]) hposr (by omega)]
      simp only [runsGo, if_neg hrun, List.map_cons, List.append_assoc, List.singleton_append]

theorem foldl_add_runs (rejected : List Int) (hpos : ∀ x ∈ rejected, 0 < x) :
    ((rejected.foldl RangePrint.add RangePrint.init).printRun).out =
      if rejected = [] then [Report.single (-1)]
      else (runs rejected).map fmtReport := by
  cases rejected with
  | nil => rfl
  | cons c rest =>
    have hposr : ∀ x ∈ rest, 0 < x := fun x hx => hpos x (List.mem_cons_of_mem _ hx)
    have hcpos : 0 < c := hpos c (List.mem_cons_self _ _)
    have hadd : RangePrint.add RangePrint.init c = ⟨c, c, []⟩ := by
      have hne : RangePrint.init.last ≠ c - 1 := by
        simp only [RangePrint.init]; omega
      simp [RangePrint.add, if_pos hne, RangePrint.init]
      omega
    simp only [List.foldl_cons, hadd]
    rw [foldl_add_go rest c c [] hposr (by omega)]
    simp [runs]

/-!  Branch lemmas for `applyConstraints`. -/

theorem applyConstraints_error (env : Env) (hints : List Hint) (e : String)
    (hev : evaluateHints env hints = Except.error e) :
    applyConstraints env hints = ⟨[], true, [], some e⟩ := by
  unfold applyConstraints
  rw [hev]

theorem applyConstraints_failed (env : Env) (hints : List Hint) (fs : Bool)
    (iter : List IterItem) (hev : evaluateHints env hints = Except.ok (fs, iter))
    (hf : (planLoop env iter).failed = true) :
    applyConstraints env hints =
      ⟨(planLoop env iter).chunks, fs, (planLoop env iter).rp.out, some typeErrorMsg⟩ := by
  unfold applyConstraints
  rw [hev]
  simp only [hf, if_true]

theorem applyConstraints_done (env : Env) (hints : List Hint) (fs : Bool)
    (iter : List IterItem) (hev : evaluateHints env hints = Except.ok (fs, iter))
    (hf : (planLoop env iter).failed = false) :
    applyConstraints env hints =
      ⟨(if (planLoop env iter).count = 0
        then (planLoop env iter).chunks ++ [⟨dummyEmptyChunk, []⟩]
        else (planLoop env iter).chunks),
       fs, (planLoop env iter).rp.printRun.out, none⟩ := by
  unfold applyConstraints
  rw [hev]
  simp only [hf, Bool.false_eq_true, if_false]

/-!  Claim theorems. -/

/-- C3: for a query with an empty hint set, planning succeeds with
`isFullSky = true` and the session receives exactly one sentinel
`ChunkSpec` (the dummy chunk) with an empty subchunk set — for every
environment.  (The diagnostic output contains the spurious
`Rejecting chunk: -1` line that `RangePrint.finish` always emits.) -/
theorem c3_full_sky (env : Env) :
    applyConstraints env [] =
      ⟨[⟨dummyEmptyChunk, []⟩], true, [Report.single (-1)], none⟩ := rfl

/-- C10: a configured debug chunk limit that is zero or negative leaves
the chunk limit of the action at the default `2 ^ 32`. -/
theorem c10_chunk_limit_default (cfgLimit : Int) (h : cfgLimit ≤ 0) :
    importQconfigChunkLimit cfgLimit = initialChunkLimit := by
  unfold importQconfigChunkLimit
  rw [if_neg (by omega)]

/-- C10 witness: the default survives a configured limit of 0. -/
theorem c10_witness : (0 : Int) ≤ 0 ∧ importQconfigChunkLimit 0 = initialChunkLimit :=
  ⟨le_refl 0, c10_chunk_limit_default 0 (le_refl 0)⟩

/-- C1: at the failing input — a spatial hint resolving to chunk 7 with
subchunks 1 and 2, plus an index hint resolving to the same chunk 7 —
planning does not produce one merged `ChunkSpec`: `_evaluateHints` chains
the spatial `(chunkId, subChunkIds)` tuples with the bare index chunk ids,
so the dispatch loop adds the spatial spec and then aborts with a
`TypeError` while unpacking the bare id.  No finalized plan exists
(`error` is set, `isValid` stays false) and the session holds a partial
plan of one chunk. -/
theorem c1_code_bug :
    applyConstraints envC1 hintsC1 =
      ⟨[⟨7, [1, 2]⟩], false, [], some typeErrorMsg⟩ := rfl

/-- C8: when the region factory cannot parse the spatial hints (it returns
no regions and a non-empty error description), planning aborts with the
`QueryHintError` hint-parse message and adds no chunk at all to the
session: no partial plan is produced. -/
theorem c8_parse_error_aborts (env : Env) (hints : List Hint) (hne : hints ≠ [])
    (hnone : env.getRegionFromHint hints = none)
    (hdesc : env.errorDesc hints ≠ "") :
    applyConstraints env hints =
      ⟨[], true, [], some (hintParseMsg (env.errorDesc hints))⟩ := by
  have hcsr : computeSpatialRegions env hints =
      Except.error (hintParseMsg (env.errorDesc hints)) := by
    unfold computeSpatialRegions
    rw [hnone]
    simp only [ne_eq, hdesc, not_false_eq_true, if_pos]
  have hev : evaluateHints env hints =
      Except.error (hintParseMsg (env.errorDesc hints)) := by
    unfold evaluateHints
    rw [if_neg hne, hcsr]
  exact applyConstraints_error env hints _ hev

/-- C8 witness: a malformed box hint aborts planning with the parse error
and an empty session. -/
theorem c8_witness :
    hintsC8w ≠ [] ∧ envC8w.getRegionFromHint hintsC8w = none ∧
      envC8w.errorDesc hintsC8w ≠ "" ∧
      applyConstraints envC8w hintsC8w =
        ⟨[], true, [], some (hintParseMsg (envC8w.errorDesc hintsC8w))⟩ :=
  ⟨by decide, rfl, by decide,
   c8_parse_error_aborts envC8w hintsC8w (by decide) rfl (by decide)⟩

/-- C2 counterexample: when the per-database empty-chunk set contains the
sentinel chunk id, a hint-less query still ends with the fallback emitting
that very chunk id into the finalized plan, so a member of the
EmptyChunkSet does appear in the plan. -/
theorem c2_counterexample :
    dummyEmptyChunk ∈ envC2x.emptyChunks ∧
      (applyConstraints envC2x []).error = none ∧
      (applyConstraints envC2x []).sessionChunks = [⟨dummyEmptyChunk, []⟩] := by
  refine ⟨?_, rfl, rfl⟩
  decide

/-- C2 amended: every chunk spec in the session either has a chunk id
outside the empty-chunk set (all candidate-derived specs do) or is the
sentinel dummy chunk, which the fallback emits without consulting the
empty-chunk set. -/
theorem c2_amended (env : Env) (hints : List Hint) (x : ChunkSpec)
    (hx : x ∈ (applyConstraints env hints).sessionChunks) :
    x.chunkId ∉ env.emptyChunks ∨ x.chunkId = dummyEmptyChunk := by
  rcases hev : evaluateHints env hints with e | p
  · rw [applyConstraints_error env hints e hev] at hx
    simp at hx
  · obtain ⟨fs, iter⟩ := p
    by_cases hf : (planLoop env iter).failed
    · rw [applyConstraints_failed env hints fs iter hev hf] at hx
      simp only at hx
      rcases addLoop_mem env.emptyChunks env.chunkLimit iter 0 RangePrint.init [] x hx
        with h | h
      · simp at h
      · exact Or.inl h
    · rw [applyConstraints_done env hints fs iter hev (by simpa using hf)] at hx
      simp only at hx
      by_cases hc : (planLoop env iter).count = 0
      · rw [if_pos hc] at hx
        rcases List.mem_append.mp hx with h | h
        · rcases addLoop_mem env.emptyChunks env.chunkLimit iter 0 RangePrint.init [] x h
            with h2 | h2
          · simp at h2
          · exact Or.inl h2
        · right
          simp at h
          rw [h]
      · rw [if_neg hc] at hx
        rcases addLoop_mem env.emptyChunks env.chunkLimit iter 0 RangePrint.init [] x hx
          with h | h
        · simp at h
        · exact Or.inl h

/-- C2 witness: with chunk 42 empty and candidates 42 and 7, the retained
spec for chunk 7 satisfies the amended property. -/
theorem c2_witness :
    (⟨7, []⟩ : ChunkSpec) ∈ (applyConstraints envC2w hintsC2w).sessionChunks ∧
      ((⟨7, []⟩ : ChunkSpec).chunkId ∉ envC2w.emptyChunks ∨
        (⟨7, []⟩ : ChunkSpec).chunkId = dummyEmptyChunk) :=
  ⟨by decide, c2_amended envC2w hintsC2w ⟨7, []⟩ (by decide)⟩

/-- C4: whenever the dispatch loop finishes without adding any chunk
(retained candidate count zero after merging, filtering and capping),
planning succeeds and the finalized plan is exactly one sentinel
`ChunkSpec` with no subchunks — never an empty plan. -/
theorem c4_dummy_fallback (env : Env) (hints : List Hint) (fs : Bool)
    (iter : List IterItem) (hev : evaluateHints env hints = Except.ok (fs, iter))
    (hnf : (planLoop env iter).failed = false)
    (hz : (planLoop env iter).count = 0) :
    (applyConstraints env hints).sessionChunks = [⟨dummyEmptyChunk, []⟩] ∧
      (applyConstraints env hints).error = none := by
  have hcount := addLoop_count env.emptyChunks env.chunkLimit iter 0 RangePrint.init []
  have hlen : (planLoop env iter).chunks.length = 0 := by
    simp only [planLoop] at hz ⊢
    simp only [List.length_nil, Nat.cast_zero, add_zero, zero_add] at hcount
    omega
  have hchunks : (planLoop env iter).chunks = [] := List.length_eq_zero.mp hlen
  rw [applyConstraints_done env hints fs iter hev hnf]
  rw [if_pos hz, hchunks]
  exact ⟨rfl, rfl⟩

/-- C4 witness: a box hint whose region intersects no partition stripe
yields the single sentinel chunk. -/
theorem c4_witness :
    evaluateHints envC4w hintsC4w = Except.ok (false, []) ∧
      ((applyConstraints envC4w hintsC4w).sessionChunks = [⟨dummyEmptyChunk, []⟩] ∧
        (applyConstraints envC4w hintsC4w).error = none) :=
  ⟨rfl, c4_dummy_fallback envC4w hintsC4w false [] rfl rfl rfl⟩

/-- C7: secondary-index lookup over an empty lookup sequence returns the
empty (None) result, and over two lookups the combined chunk-id result is
the set union of the per-lookup matches (the UNION-joined query collapses
duplicates): each chunk id appears exactly once. -/
theorem c7_lookup_union (perLookup : IndexLookup → List Int) (l1 l2 : IndexLookup) :
    SecondaryIndex.lookup (idxEnv perLookup) [] = Except.ok none ∧
    ∃ cids : List Int,
      SecondaryIndex.lookup (idxEnv perLookup) [l1, l2] = Except.ok (some cids) ∧
      (∀ c : Int, c ∈ cids ↔ (c ∈ perLookup l1 ∨ c ∈ perLookup l2)) ∧
      cids.Nodup := by
  constructor
  · rfl
  · refine ⟨(perLookup l1 ++ perLookup l2).dedup, ?_, ?_, List.nodup_dedup _⟩
    · unfold SecondaryIndex.lookup idxEnv sqlUnionExec
      rw [if_neg (by simp)]
      rw [if_pos (by simp)]
      rw [List.map_map]
      have hid : ((fun t : List Int => t.headD 0) ∘ fun c : Int => [c]) = id := by
        funext c; rfl
      rw [hid, List.map_id]
      simp
    · intro c
      simp [List.mem_dedup]

/-- C6 counterexample: a spatial hint whose region intersects no partition
stripe clears the full-sky flag even though the intersection candidate set
is empty — `_isFullSky` is set to false when the region list is non-empty,
not when the candidate set is non-empty; the finalized plan is just the
sentinel chunk. -/
theorem c6_counterexample :
    evaluateHints envC6x hintsC6x = Except.ok (false, []) ∧
      (applyConstraints envC6x hintsC6x).isFullSky = false ∧
      (applyConstraints envC6x hintsC6x).sessionChunks = [⟨dummyEmptyChunk, []⟩] :=
  ⟨rfl, rfl, rfl⟩

/-- C6 amended: when hints are present and both resolution steps succeed,
the full-sky flag ends up false exactly when the spatial hints produced at
least one region or the index hints produced a non-empty chunk-id list —
regardless of whether the partition-map intersection itself produced any
candidate. -/
theorem c6_amended (env : Env) (hints : List Hint) (fs : Bool) (iter : List IterItem)
    (regs : List Region) (idx : Option (List Int))
    (hne : hints ≠ [])
    (hr : computeSpatialRegions env hints = Except.ok regs)
    (hi : computeIndexRegions env hints = Except.ok idx)
    (hev : evaluateHints env hints = Except.ok (fs, iter)) :
    fs = false ↔ (regs ≠ [] ∨ ∃ cids : List Int, idx = some cids ∧ cids ≠ []) := by
  unfold evaluateHints at hev
  rw [if_neg hne, hr, hi] at hev
  rcases idx with _ | cids
  · dsimp only at hev
    rw [Except.ok.injEq, Prod.mk.injEq] at hev
    obtain ⟨hfs, _⟩ := hev
    by_cases hregs : regs = []
    · rw [if_neg (by simp [hregs])] at hfs
      simp [← hfs, hregs]
    · rw [if_pos hregs] at hfs
      simp [← hfs, hregs]
  · dsimp only at hev
    by_cases hcids : cids = []
    · rw [if_neg (by simp [hcids])] at hev
      rw [Except.ok.injEq, Prod.mk.injEq] at hev
      obtain ⟨hfs, _⟩ := hev
      by_cases hregs : regs = []
      · rw [if_neg (by simp [hregs])] at hfs
        simp [← hfs, hregs, hcids]
      · rw [if_pos hregs] at hfs
        simp [← hfs, hregs]
    · rw [if_pos hcids] at hev
      rw [Except.ok.injEq, Prod.mk.injEq] at hev
      obtain ⟨hfs, _⟩ := hev
      simp [← hfs, hcids]

/-- C6 witness: a box hint producing one region that intersects chunk 3
clears the full-sky flag, consistent with the amended equivalence. -/
theorem c6_witness :
    hintsC6w ≠ [] ∧
      computeSpatialRegions envC6w hintsC6w = Except.ok [0] ∧
      computeIndexRegions envC6w hintsC6w = Except.ok none ∧
      evaluateHints envC6w hintsC6w = Except.ok (false, [IterItem.pair 3 [1]]) ∧
      (false = false ↔ (([0] : List Region) ≠ [] ∨
        ∃ cids : List Int, (none : Option (List Int)) = some cids ∧ cids ≠ [])) :=
  ⟨by decide, rfl, rfl, rfl,
   c6_amended envC6w hintsC6w false [IterItem.pair 3 [1]] [0] none (by decide) rfl rfl rfl⟩

/-- Characterization of the finalized session chunks for tuple-only
iterators under a positive chunk limit: the retained specs are the first
`chunkLimit` filter survivors in enumeration order, with the sentinel
fallback when none survive; planning succeeds. -/
theorem sessionChunks_take (env : Env) (hints : List Hint) (fs : Bool) (iter : List IterItem)
    (hev : evaluateHints env hints = Except.ok (fs, iter))
    (hp : ∀ i ∈ iter, i.isPair = true)
    (hl : 0 < env.chunkLimit) :
    (applyConstraints env hints).sessionChunks =
      (if (survivorsList env.emptyChunks iter).take env.chunkLimit.toNat = []
       then [⟨dummyEmptyChunk, []⟩]
       else (survivorsList env.emptyChunks iter).take env.chunkLimit.toNat) ∧
    (applyConstraints env hints).error = none := by
  have hnf : (planLoop env iter).failed = false :=
    addLoop_failed env.emptyChunks env.chunkLimit iter hp 0 RangePrint.init []
  have hch : (planLoop env iter).chunks =
      (survivorsList env.emptyChunks iter).take env.chunkLimit.toNat := by
    have h := addLoop_chunks env.emptyChunks env.chunkLimit iter hp 0 RangePrint.init [] hl
    simpa [planLoop, sub_zero] using h
  have hcount := addLoop_count env.emptyChunks env.chunkLimit iter 0 RangePrint.init []
  simp only [List.length_nil, Nat.cast_zero, add_zero, zero_add] at hcount
  rw [applyConstraints_done env hints fs iter hev hnf]
  refine ⟨?_, rfl⟩
  by_cases ht : (survivorsList env.emptyChunks iter).take env.chunkLimit.toNat = []
  · have hc0 : (planLoop env iter).count = 0 := by
      have hchl : (planLoop env iter).chunks.length = 0 := by rw [hch, ht]; rfl
      simp only [planLoop] at hchl ⊢
      omega
    rw [if_pos hc0, if_pos ht, hch, ht]
    rfl
  · have hcne : ¬ (planLoop env iter).count = 0 := by
      have hchl : ¬ (planLoop env iter).chunks.length = 0 := by
        rw [hch]
        exact fun h => ht (List.length_eq_zero.mp h)
      simp only [planLoop] at hchl ⊢
      omega
    rw [if_neg hcne, if_neg ht, hch]

/-- C5 counterexample: with a chunk limit of 2 and surviving candidates
enumerated as 10, 3, 5, the plan keeps the first two in enumeration order
(10 and 3) and silently drops 5, even though 5 is lower-numbered than the
retained 10 — so the retained chunks are not the lowest-numbered
candidates, and no capped flag exists to record the truncation. -/
theorem c5_counterexample :
    evaluateHints envC5x hintsC5x = Except.ok (false, iterC5x) ∧
      (applyConstraints envC5x hintsC5x).error = none ∧
      (applyConstraints envC5x hintsC5x).sessionChunks.map ChunkSpec.chunkId = [10, 3] ∧
      (survivorsList envC5x.emptyChunks iterC5x).map ChunkSpec.chunkId = [10, 3, 5] ∧
      (5 : Int) ∉ (applyConstraints envC5x hintsC5x).sessionChunks.map ChunkSpec.chunkId ∧
      (3 : Int) < 5 ∧ (5 : Int) < 10 :=
  ⟨rfl, rfl, rfl, rfl, by decide, by decide, by decide⟩

/-- C5 amended: under a positive chunk limit L, the finalized plan never
has more than L chunk specs, and the retained specs are exactly the first
L filter survivors in candidate enumeration order (all of them, plus the
sentinel fallback, when fewer than L survive).  No capped flag is set. -/
theorem c5_amended (env : Env) (hints : List Hint) (fs : Bool) (iter : List IterItem)
    (hev : evaluateHints env hints = Except.ok (fs, iter))
    (hp : ∀ i ∈ iter, i.isPair = true)
    (hl : 0 < env.chunkLimit) :
    ((applyConstraints env hints).sessionChunks =
      (if (survivorsList env.emptyChunks iter).take env.chunkLimit.toNat = []
       then [⟨dummyEmptyChunk, []⟩]
       else (survivorsList env.emptyChunks iter).take env.chunkLimit.toNat)) ∧
    (applyConstraints env hints).sessionChunks.length ≤ env.chunkLimit.toNat := by
  obtain ⟨h1, _⟩ := sessionChunks_take env hints fs iter hev hp hl
  refine ⟨h1, ?_⟩
  rw [h1]
  by_cases ht : (survivorsList env.emptyChunks iter).take env.chunkLimit.toNat = []
  · rw [if_pos ht]
    simp only [List.length_singleton]
    omega
  · rw [if_neg ht]
    exact List.length_take_le _ _

/-- C5 witness: with limit 2 and survivors enumerated 4, 9, 1 the plan is
the first two survivors and respects the length bound. -/
theorem c5_witness :
    evaluateHints envC5w hintsC5w = Except.ok (false, iterC5w) ∧
      (∀ i ∈ iterC5w, i.isPair = true) ∧ 0 < envC5w.chunkLimit ∧
      (((applyConstraints envC5w hintsC5w).sessionChunks =
        (if (survivorsList envC5w.emptyChunks iterC5w).take envC5w.chunkLimit.toNat = []
         then [⟨dummyEmptyChunk, []⟩]
         else (survivorsList envC5w.emptyChunks iterC5w).take envC5w.chunkLimit.toNat)) ∧
       (applyConstraints envC5w hintsC5w).sessionChunks.length ≤ envC5w.chunkLimit.toNat) :=
  ⟨rfl, by decide, by decide,
   c5_amended envC5w hintsC5w false iterC5w rfl (by decide) (by decide)⟩

/-- C9 counterexample: chunks 5 and 6 form one maximal rejected run of
length two, yet the code reports only `Rejecting chunk: 6` (a single-chunk
line naming the last of the run) instead of the range `5-6`, because
`RangePrint._print` uses the range format only when `last - first > 1`. -/
theorem c9_counterexample :
    evaluateHints envC9x hintsC9x = Except.ok (false, iterC9x) ∧
      rejectedOf envC9x.emptyChunks iterC9x = [5, 6] ∧
      runs [5, 6] = [(5, 6)] ∧
      (applyConstraints envC9x hintsC9x).reports = [Report.single 6] ∧
      (applyConstraints envC9x hintsC9x).sessionChunks.map ChunkSpec.chunkId = [8] :=
  ⟨rfl, rfl, by decide, rfl, rfl⟩

/-- C9 amended: for tuple-only iterators whose survivors stay below the
chunk limit and whose rejected chunk ids are positive, the diagnostic
output is exactly one line per maximal rejected run — a range line naming
both endpoints for runs of length greater than two, a single-chunk line
naming the last element of the run for runs of length one or two — and a
spurious `Rejecting chunk: -1` line when nothing was rejected; the
retained chunks are determined by the survivors alone, independent of the
reporting. -/
theorem c9_amended (env : Env) (hints : List Hint) (fs : Bool) (iter : List IterItem)
    (hev : evaluateHints env hints = Except.ok (fs, iter))
    (hp : ∀ i ∈ iter, i.isPair = true)
    (hnb : ((survivorsList env.emptyChunks iter).length : Int) < env.chunkLimit)
    (hpos : ∀ x ∈ rejectedOf env.emptyChunks iter, 0 < x) :
    ((applyConstraints env hints).reports =
      if rejectedOf env.emptyChunks iter = [] then [Report.single (-1)]
      else (runs (rejectedOf env.emptyChunks iter)).map fmtReport) ∧
    ((applyConstraints env hints).sessionChunks =
      if (survivorsList env.emptyChunks iter).take env.chunkLimit.toNat = []
      then [⟨dummyEmptyChunk, []⟩]
      else (survivorsList env.emptyChunks iter).take env.chunkLimit.toNat) := by
  have hl : 0 < env.chunkLimit := lt_of_le_of_lt (Int.natCast_nonneg _) hnb
  have hnf : (planLoop env iter).failed = false :=
    addLoop_failed env.emptyChunks env.chunkLimit iter hp 0 RangePrint.init []
  have hrp : (planLoop env iter).rp =
      (rejectedOf env.emptyChunks iter).foldl RangePrint.add RangePrint.init := by
    have h := addLoop_rp env.emptyChunks env.chunkLimit iter hp 0 RangePrint.init [] (by omega)
    simpa [planLoop] using h
  constructor
  · rw [applyConstraints_done env hints fs iter hev hnf]
    dsimp only
    rw [hrp]
    exact foldl_add_runs _ hpos
  · exact (sessionChunks_take env hints fs iter hev hp hl).1

/-- C9 witness: chunks 2, 3, 4 form one maximal rejected run of length
three and are reported as the range line `2-4`; chunk 9 is retained. -/
theorem c9_witness :
    evaluateHints envC9w hintsC9w = Except.ok (false, iterC9w) ∧
      (∀ i ∈ iterC9w, i.isPair = true) ∧
      ((survivorsList envC9w.emptyChunks iterC9w).length : Int) < envC9w.chunkLimit ∧
      (∀ x ∈ rejectedOf envC9w.emptyChunks iterC9w, 0 < x) ∧
      (((applyConstraints envC9w hintsC9w).reports =
        if rejectedOf envC9w.emptyChunks iterC9w = [] then [Report.single (-1)]
        else (runs (rejectedOf envC9w.emptyChunks iterC9w)).map fmtReport) ∧
       ((applyConstraints envC9w hintsC9w).sessionChunks =
        if (survivorsList envC9w.emptyChunks iterC9w).take envC9w.chunkLimit.toNat = []
        then [⟨dummyEmptyChunk, []⟩]
        else (survivorsList envC9w.emptyChunks iterC9w).take envC9w.chunkLimit.toNat)) :=
  ⟨rfl, by decide, by decide, by decide,
   c9_amended envC9w hintsC9w false iterC9w rfl (by decide) (by decide) (by decide)⟩
